import Mathlib

/-!
# Verification of the ipa-builder core (shallow embedding)

This file embeds the algorithmic core of the `ipa-builder` repository
(`src/ipa_logic.rs` and `src/autocheck.rs`) as executable Lean definitions and
proves, or refutes, the frozen specification claims about it.

Modelling conventions:
* Rust `&str`/`String` values are Lean `String`; the character-level operations
  (`trim`, `to_lowercase`, `to_ascii_lowercase`, `starts_with`, `ends_with`,
  `contains`) are reimplemented over `String.data` so that concrete inputs
  evaluate by `decide`/`rfl`.  Unicode lowercasing is modelled as ASCII
  lowercasing (every string the claims mention is ASCII).
* Filesystem facts that the Rust code queries (`Path::exists`, `Path::is_dir`,
  `WalkDir` traversals, metadata sizes, `File::open` succeeding) are supplied
  as explicit inputs: a traversal is a list of observed entries in traversal
  order, a polling loop consumes a stream of observations, directory-ness is a
  boolean-valued oracle.
* Fallible Rust functions returning `Result` become `Except` values, and the
  pipeline additionally returns the chronological list of filesystem actions it
  performed, so that claims about "no filesystem work before the check" are
  statable.
-/

namespace IpaBuilder

/-! ## String primitives (models of the Rust `str` methods used by the code) -/

/-- Model of Rust `u8::to_ascii_lowercase` lifted to `Char`: maps `A`..`Z` to
`a`..`z` and leaves every other character unchanged. -/
def asciiLowerChar (c : Char) : Char :=
  if 'A' ≤ c ∧ c ≤ 'Z' then Char.ofNat (c.toNat + 32) else c

/-- Model of Rust `str::to_lowercase` / `str::to_ascii_lowercase` (ASCII
fragment). -/
def toLowerAscii (s : String) : String :=
  ⟨s.data.map asciiLowerChar⟩

/-- Model of Rust `str::starts_with` on strings. -/
def startsWithS (s p : String) : Bool :=
  p.data.isPrefixOf s.data

/-- Model of Rust `str::ends_with` on strings. -/
def endsWithS (s p : String) : Bool :=
  p.data.isSuffixOf s.data

/-- Model of Rust `str::contains(char)`. -/
def containsC (s : String) (c : Char) : Bool :=
  s.data.contains c

/-- ASCII whitespace recognizer, modelling the characters Rust `str::trim`
strips in the inputs relevant here. -/
def isWs (c : Char) : Bool :=
  c == ' ' || c == '\t' || c == '\n' || c == '\r'

/-- Trim on the character list: drop leading and trailing whitespace. -/
def trimList (l : List Char) : List Char :=
  ((l.dropWhile isWs).reverse.dropWhile isWs).reverse

/-- Model of Rust `str::trim`. -/
def trimS (s : String) : String :=
  ⟨trimList s.data⟩

/-- Strict lexicographic comparison of character lists (standard dictionary
order on code points). -/
def charListLt : List Char → List Char → Bool
  | [], [] => false
  | [], _ :: _ => true
  | _ :: _, [] => false
  | a :: as, b :: bs => if a < b then true else if b < a then false else charListLt as bs

/-- Strict lexicographic order on strings, used by the spec-side bundle
selection rule. -/
def strLtB (a b : String) : Bool :=
  charListLt a.data b.data

/-- Reflexive lexicographic order on strings. -/
def strLeB (a b : String) : Bool :=
  !(strLtB b a)

/-! ## `ipa_logic.rs`: permission policy (lines 198-222) -/

/-- The fixed set of executable-image magic numbers recognized by `is_macho`
(`ipa_logic.rs` lines 213-221): big/little-endian Mach-O 32/64-bit and fat
binary magics. -/
def machoMagics : List Nat :=
  [0xFEEDFACE, 0xFEEDFACF, 0xCAFEBABE, 0xBEBAFECA, 0xCEFAEDFE, 0xCFFAEDFE]

/-- Big-endian 32-bit word assembled from four bytes, modelling
`u32::from_be_bytes` (`ipa_logic.rs` line 212).  Byte values are `Nat`s below
256. -/
def fromBeBytes (b0 b1 b2 b3 : Nat) : Nat :=
  b0 * 2 ^ 24 + b1 * 2 ^ 16 + b2 * 2 ^ 8 + b3

/-- Model of `is_macho` (`ipa_logic.rs` lines 208-222): false when fewer than
four bytes are present, otherwise true exactly when the big-endian word formed
from the first four bytes is one of the recognized magics. -/
def is_macho (bytes : List Nat) : Bool :=
  match bytes with
  | b0 :: b1 :: b2 :: b3 :: _ => machoMagics.contains (fromBeBytes b0 b1 b2 b3)
  | _ => false

/-- Model of `unix_permissions_for_payload_file` (`ipa_logic.rs` lines
198-206).  The file path is represented by its extension
(`Path::extension().and_then(to_str)`, an `Option String`); the content by its
byte list. -/
def unix_permissions_for_payload_file (ext : Option String) (bytes : List Nat) : Nat :=
  if is_macho bytes then 0o755
  else if ext = some "dylib" then 0o755
  else 0o644

/-! ## `ipa_logic.rs`: archive entry naming and validation -/

/-- Model of `zip_name_from_relative_path` (`ipa_logic.rs` lines 182-196): the
relative path is its list of components; components are joined with `/` and a
directory entry gets a trailing slash unless empty or already present. -/
def zip_name_from_relative_path (components : List String) (is_dir : Bool) : String :=
  let s := String.intercalate "/" components
  if is_dir then
    (if s ≠ "" ∧ endsWithS s "/" = false then s ++ "/" else s)
  else s

/-- A filesystem node observed while walking the assembled `Payload` tree
(`ipa_logic.rs` lines 124-149): its path components relative to the build
scratch root, and whether it is a directory. -/
structure PayloadEntry where
  relComponents : List String
  isDir : Bool
deriving DecidableEq, Repr

/-- The archive entry names emitted by the build loop (`ipa_logic.rs` lines
124-149): each walked node is named by `zip_name_from_relative_path`, and
empty names are skipped (`continue`, line 131). -/
def build_archive_entries (payload : List PayloadEntry) : List String :=
  (payload.map fun e => zip_name_from_relative_path e.relComponents e.isDir).filter
    fun n => n ≠ ""

/-- Typed pipeline error, modelling `IpaError` (`ipa_logic.rs` lines 12-36).
The `Io`/`Zip`/`WalkDir` payloads (wrapped foreign error values) are dropped;
errors carrying a path carry its string form. -/
inductive IpaError where
  | IoError
  | ZipError
  | WalkDirError
  | TempDirError
  | InputFileNotFound (path : String)
  | OutputDirectoryInvalid (path : String)
  | UnexpectedZipStructure (root : String)
  | PayloadCreationFailed (path : String)
  | MoveToPayloadFailed (path : String)
  | InvalidIpaName (name : String)
  | InvalidIpaStructure (msg : String)
deriving DecidableEq, Repr

/-- Model of `validate_generated_ipa` (`ipa_logic.rs` lines 158-180).  The
produced archive is abstracted to the list of its entry names; the scan
succeeds when some name starts with `Payload/` and ends with
`.app/Info.plist`, and otherwise reports the structural error. -/
def validate_generated_ipa (entries : List String) : Except IpaError Unit :=
  if entries.any (fun name =>
      startsWithS name "Payload/" && endsWithS name ".app/Info.plist") then
    Except.ok ()
  else
    Except.error (IpaError.InvalidIpaStructure "Missing Payload/<App>.app/Info.plist")

/-! ## `ipa_logic.rs`: bundle locator (lines 70-84) -/

/-- A directory-tree node observed by the `WalkDir` traversal of the
extraction scratch directory, in traversal order: its full path, its file
name (`Path::file_name`, may be absent), its depth below the root, whether it
is a directory, its extension, and whether it directly contains `Info.plist`
(`path.join("Info.plist").exists()`). -/
structure WalkEntry where
  path : String
  fileName : Option String
  depth : Nat
  isDir : Bool
  ext : Option String
  hasInfoPlist : Bool
deriving DecidableEq, Repr

/-- The traversal depth window configured by `.min_depth(1).max_depth(3)`
(`ipa_logic.rs` line 71). -/
def withinDepthB (e : WalkEntry) : Bool :=
  decide (1 ≤ e.depth) && decide (e.depth ≤ 3)

/-- The candidate test of the locator loop (`ipa_logic.rs` lines 74-75): a
directory whose extension is `app` directly containing `Info.plist`. -/
def qualifies (e : WalkEntry) : Bool :=
  e.isDir && e.ext == some "app" && e.hasInfoPlist

/-- Model of the bundle-locator loop of `generate_ipa` (`ipa_logic.rs` lines
70-83): scan the depth-bounded traversal in order and stop at the first
qualifying entry (`break`, line 78), returning its path. -/
def locate_app_bundle (entries : List WalkEntry) : Option String :=
  ((entries.filter withinDepthB).find? qualifies).map WalkEntry.path

/-- One step of the lexicographic-minimum fold. -/
def lexMin2 (acc : Option String) (p : String) : Option String :=
  match acc with
  | none => some p
  | some q => if strLtB p q then some p else some q

/-- Smallest element of a list of strings in ascending lexicographic order
(`none` on the empty list). -/
def lexSmallest (paths : List String) : Option String :=
  paths.foldl lexMin2 none

/-- The bundle selection rule as the spec words it (spec §4.1: "candidates
must be collected fully and then resolved by ascending lexicographic path
order, selecting the smallest").  Stated for refinement comparison with
`locate_app_bundle`, which is the translation of the source. -/
def locate_app_bundle_per_spec (entries : List WalkEntry) : Option String :=
  lexSmallest (((entries.filter withinDepthB).filter qualifies).map WalkEntry.path)

/-! ## `ipa_logic.rs`: the pipeline `generate_ipa` (lines 49-156) -/

/-- Model of `AppConfig` (`app.rs`), restricted to the fields `generate_ipa`
reads; the timestamps `created_at`/`last_generated_at` are never consulted by
the pipeline and are omitted. -/
structure AppConfig where
  id : String
  input_zip_path : String
  app_name : String
  output_ipa_name : String
deriving DecidableEq, Repr

/-- An observable filesystem side effect of the pipeline, in the order the
source performs them: temp-dir creation (lines 60, 87), archive extraction
(line 66), `Payload` directory creation (line 89), the recursive bundle copy
(line 95), and creation of the output archive file (line 111). -/
inductive FsAction where
  | createTempDir
  | extractArchive
  | createPayloadDir
  | copyBundle
  | createOutputFile (name : String)
deriving DecidableEq, Repr

/-- The filesystem facts `generate_ipa` observes during one run: existence of
the input, directory-ness of the output directory, success of
open/extract (lines 64-66, collapsed to one flag), the traversal of the
extracted tree, success of the recursive copy, and the traversal of the
assembled payload tree.  `extractedRoot` is the path of the extraction scratch
directory. -/
structure PipelineEnv where
  inputExists : Bool
  outputDirIsDir : Bool
  extractOk : Bool
  extractedRoot : String
  walkEntries : List WalkEntry
  copyOk : Bool
  payloadWalk : List PayloadEntry
deriving Repr

/-- Model of `generate_ipa` (`ipa_logic.rs` lines 49-156).  Returns the
result together with the chronological list of filesystem actions performed.
Step order follows the source exactly: input/output checks (lines 52-57),
extraction temp dir (line 60), extraction (lines 64-66), bundle location
(lines 70-83), second temp dir and `Payload` creation (lines 87-89), bundle
copy (line 95), output-name validation (lines 103-109), output-file creation
and archive build (lines 110-150), final validation (line 153).  Temp-dir
creation itself is assumed to succeed; build-phase I/O failures are not
modelled (no claim concerns them). -/
def generate_ipa (config : AppConfig) (output_dir : String) (env : PipelineEnv) :
    Except IpaError String × List FsAction :=
  if env.inputExists = false then
    (Except.error (IpaError.InputFileNotFound config.input_zip_path), [])
  else if env.outputDirIsDir = false then
    (Except.error (IpaError.OutputDirectoryInvalid output_dir), [])
  else if env.extractOk = false then
    (Except.error IpaError.ZipError, [FsAction.createTempDir])
  else
    match locate_app_bundle env.walkEntries with
    | none =>
        (Except.error (IpaError.UnexpectedZipStructure env.extractedRoot),
         [FsAction.createTempDir, FsAction.extractArchive])
    | some _bundlePath =>
        if env.copyOk = false then
          (Except.error (IpaError.MoveToPayloadFailed "Payload"),
           [FsAction.createTempDir, FsAction.extractArchive,
            FsAction.createTempDir, FsAction.createPayloadDir])
        else
          let ipaName := trimS config.output_ipa_name
          if ipaName = "" ∨ endsWithS (toLowerAscii ipaName) ".ipa" = false then
            (Except.error (IpaError.InvalidIpaName ipaName),
             [FsAction.createTempDir, FsAction.extractArchive,
              FsAction.createTempDir, FsAction.createPayloadDir, FsAction.copyBundle])
          else if containsC ipaName '/' = true ∨ containsC ipaName '\\' = true then
            (Except.error (IpaError.InvalidIpaName ipaName),
             [FsAction.createTempDir, FsAction.extractArchive,
              FsAction.createTempDir, FsAction.createPayloadDir, FsAction.copyBundle])
          else
            match validate_generated_ipa (build_archive_entries env.payloadWalk) with
            | Except.error e =>
                (Except.error e,
                 [FsAction.createTempDir, FsAction.extractArchive,
                  FsAction.createTempDir, FsAction.createPayloadDir, FsAction.copyBundle,
                  FsAction.createOutputFile ipaName])
            | Except.ok _ =>
                (Except.ok (output_dir ++ "/" ++ ipaName),
                 [FsAction.createTempDir, FsAction.extractArchive,
                  FsAction.createTempDir, FsAction.createPayloadDir, FsAction.copyBundle,
                  FsAction.createOutputFile ipaName])

/-! ## `autocheck.rs`: candidate filter, stability wait, watcher loop -/

/-- A filesystem path as the watcher observes it: whether it is an existing
regular file (`Path::is_file`), and its file name as a UTF-8 string when it
has one (`Path::file_name().and_then(to_str)`, `none` covering both a missing
name and a non-UTF-8 one). -/
structure FsPath where
  isFile : Bool
  fileName : Option String
deriving DecidableEq, Repr

/-- Model of `is_candidate_runner_zip` (`autocheck.rs` lines 170-182): an
existing file whose ASCII-lowercased name starts with `runner.app` and ends
with `.zip`. -/
def is_candidate_runner_zip (p : FsPath) : Bool :=
  if p.isFile = false then false
  else
    match p.fileName with
    | none => false
    | some name =>
        let lower := toLowerAscii name
        startsWithS lower "runner.app" && endsWithS lower ".zip"

/-- One poll observation of the watched file inside `wait_until_file_ready`
(`autocheck.rs` lines 188-207): the result of `fs::metadata(path)` as the
observed size (`none` when metadata fails), and whether `File::open` would
succeed at that instant. -/
structure PollObs where
  size : Option Nat
  openOk : Bool

/-- Model of `wait_until_file_ready` (`autocheck.rs` lines 184-210).  `obs t`
is the observation a poll performed at instant `t` would make; `fuel` is the
number of polls the 15-second budget still allows (the loop guard
`start.elapsed() < max_wait`); `lastLen` is the `last_len` variable.  Each
iteration reads the size; a metadata failure sleeps and retries without
updating `last_len`; a size equal to `last_len` with a successful open returns
success; otherwise `last_len` is updated and the loop continues.  Returns
`true` for `Ok(())` and `false` for the timeout error. -/
def wait_until_file_ready (obs : Nat → PollObs) : Nat → Nat → Option Nat → Bool
  | 0, _, _ => false
  | fuel + 1, t, lastLen =>
    match (obs t).size with
    | none => wait_until_file_ready obs fuel (t + 1) lastLen
    | some len =>
        if lastLen = some len then
          if (obs t).openOk then true
          else wait_until_file_ready obs fuel (t + 1) (some len)
        else wait_until_file_ready obs fuel (t + 1) (some len)

/-- Outcome of the watcher loop body for one reported path (`autocheck.rs`
lines 91-132): silently ignored by the candidate filter, skipped because the
stability wait failed, or handed to `generate_ipa`. -/
inductive PathAction where
  | ignored
  | skippedNotReady
  | packaged
deriving DecidableEq, Repr

/-- The per-path dispatch of the watcher loop (`autocheck.rs` lines 91-132):
non-candidates are skipped with no status message (`continue`, line 92);
candidates whose stability wait fails are skipped with a status message
(lines 100-107); stable candidates are packaged (line 118).  `fileReady`
abstracts the outcome of `wait_until_file_ready`. -/
def process_watched_path (p : FsPath) (fileReady : Bool) : PathAction :=
  if is_candidate_runner_zip p = false then PathAction.ignored
  else if fileReady = false then PathAction.skippedNotReady
  else PathAction.packaged

/-- What one `recv_timeout` call on the internal watcher-event channel
returned (`autocheck.rs` lines 85-145): a batch of changed paths, an event
error, a timeout, or disconnection of the event channel. -/
inductive EventRecv where
  | okEvent (paths : List FsPath)
  | okError
  | timeout
  | disconnected

/-- Whether the loop keeps running after the iteration or exits. -/
inductive LoopOutcome where
  | continueLoop
  | exitLoop
deriving DecidableEq, Repr

/-- Model of one status-message send, `tx.send(...)` on the status channel: it
fails exactly when the caller's receiving endpoint has been dropped. -/
def send_status (receiverConnected : Bool) : Except Unit Unit :=
  if receiverConnected then Except.ok () else Except.error ()

/-- Control outcome of one iteration of the watcher background loop
(`autocheck.rs` lines 84-146).  Every status send in the source is
`let _ = tx.send(...)` (lines 95, 101, 120, 126, 136): the send result is
discarded, which the model mirrors by binding `send_status` to `_`.  The loop
exits only via the stop flag (line 84) or disconnection of the internal
event channel (lines 142-144). -/
def loop_iteration (stopFlag receiverConnected : Bool) (ev : EventRecv) : LoopOutcome :=
  if stopFlag then LoopOutcome.exitLoop
  else
    match ev with
    | EventRecv.okEvent paths =>
        let _ := paths.map fun _ => send_status receiverConnected
        LoopOutcome.continueLoop
    | EventRecv.okError =>
        let _ := send_status receiverConnected
        LoopOutcome.continueLoop
    | EventRecv.timeout => LoopOutcome.continueLoop
    | EventRecv.disconnected => LoopOutcome.exitLoop

/-- Model of `AutoCheckConfig` (`autocheck.rs` lines 12-17). -/
structure AutoCheckConfig where
  watch_dir : String
  output_dir : String
  app_name : String
  output_ipa_name : String
deriving DecidableEq, Repr

/-- Result of `AutoCheckRunner::start`: either a configuration error with the
message the source produces, or the background loop was spawned and a handle
returned. -/
inductive StartResult where
  | configError (msg : String)
  | spawned
deriving DecidableEq, Repr

/-- Model of the validation prologue of `AutoCheckRunner::start`
(`autocheck.rs` lines 31-56).  `isDir` is the filesystem oracle for
`Path::is_dir`.  The checks run in source order; when all pass the thread is
spawned (line 52) and a handle is returned (lines 151-155). -/
def autocheck_start (isDir : String → Bool) (cfg : AutoCheckConfig) : StartResult :=
  if isDir cfg.watch_dir = false then
    StartResult.configError ("Watch directory is invalid: " ++ cfg.watch_dir)
  else if isDir cfg.output_dir = false then
    StartResult.configError ("Output directory is invalid: " ++ cfg.output_dir)
  else if trimS cfg.app_name = "" then
    StartResult.configError "App name cannot be empty"
  else if trimS cfg.output_ipa_name = "" ∨
      endsWithS (toLowerAscii cfg.output_ipa_name) ".ipa" = false then
    StartResult.configError "Output IPA name must end with .ipa"
  else if containsC cfg.output_ipa_name '/' = true ∨
      containsC cfg.output_ipa_name '\\' = true then
    StartResult.configError "Output IPA name must be a file name, not a path"
  else
    StartResult.spawned

/-! ## Concrete inputs used by witnesses and counterexamples -/

/-- A qualifying `.app` bundle entry at depth 1, as produced by extracting the
repository's own `test_simple_ipa_generation_runner_app` fixture. -/
def runnerEntry : WalkEntry :=
  { path := "/tmp/extract/Runner.app", fileName := some "Runner.app", depth := 1,
    isDir := true, ext := some "app", hasInfoPlist := true }

/-- A non-qualifying entry (a plain text file), as in the repository's
`test_app_bundle_not_found_in_zip` fixture. -/
def readmeEntry : WalkEntry :=
  { path := "/tmp/extract2/readme.txt", fileName := some "readme.txt", depth := 1,
    isDir := false, ext := some "txt", hasInfoPlist := false }

/-- A qualifying bundle whose path is lexicographically larger, listed first
in traversal order. -/
def bundleEntryB : WalkEntry :=
  { path := "/tmp/extract/b.app", fileName := some "b.app", depth := 1,
    isDir := true, ext := some "app", hasInfoPlist := true }

/-- A qualifying bundle whose path is lexicographically smaller, listed second
in traversal order. -/
def bundleEntryA : WalkEntry :=
  { path := "/tmp/extract/a.app", fileName := some "a.app", depth := 1,
    isDir := true, ext := some "app", hasInfoPlist := true }

/-- An environment in which every step of the pipeline up to the output-name
check succeeds. -/
def envGood : PipelineEnv :=
  { inputExists := true, outputDirIsDir := true, extractOk := true,
    extractedRoot := "/tmp/extract", walkEntries := [runnerEntry], copyOk := true,
    payloadWalk :=
      [⟨["Payload"], true⟩, ⟨["Payload", "Runner.app"], true⟩,
       ⟨["Payload", "Runner.app", "Info.plist"], false⟩] }

/-- An environment whose extracted tree contains no qualifying bundle. -/
def envNoBundle : PipelineEnv :=
  { inputExists := true, outputDirIsDir := true, extractOk := true,
    extractedRoot := "/tmp/extract2", walkEntries := [readmeEntry], copyOk := true,
    payloadWalk := [] }

/-- A request whose output archive name lacks the `.ipa` extension. -/
def cfgBadName : AppConfig :=
  { id := "cfg-bad", input_zip_path := "/in/Runner.app.zip", app_name := "MyApp",
    output_ipa_name := "MyApp.zip" }

/-- A well-formed request. -/
def cfgOkName : AppConfig :=
  { id := "cfg-ok", input_zip_path := "/in/Runner.app.zip", app_name := "MyApp",
    output_ipa_name := "MyApp.ipa" }

/-- Poll stream of a file whose size is constant and which is always
openable. -/
def constSizeObs : Nat → PollObs := fun _ => { size := some 7, openOk := true }

/-- Poll stream of a file whose size strictly grows at every poll. -/
def growingSizeObs : Nat → PollObs := fun t => { size := some t, openOk := true }

/-- Two successful size reads at `t1 < t2` reporting the same size, with every
poll strictly between them failing to read metadata, and the file openable at
`t2`: the exact situation in which `wait_until_file_ready` declares
stability. -/
def consecReady (obs : Nat → PollObs) (t1 t2 : Nat) : Prop :=
  t1 < t2 ∧ (obs t1).size = (obs t2).size ∧ (obs t2).size ≠ none ∧
    (∀ u, u < t2 → t1 < u → (obs u).size = none) ∧ (obs t2).openOk = true

/-! ## Helper lemmas -/

theorem is_macho_take_four (bytes : List Nat) : is_macho (bytes.take 4) = is_macho bytes := by
  match bytes with
  | [] => rfl
  | [_] => rfl
  | [_, _] => rfl
  | [_, _, _] => rfl
  | _ :: _ :: _ :: _ :: _ => rfl

theorem is_macho_short {bytes : List Nat} (hlen : bytes.length < 4) :
    is_macho bytes = false := by
  match bytes with
  | [] => rfl
  | [_] => rfl
  | [_, _] => rfl
  | [_, _, _] => rfl
  | _ :: _ :: _ :: _ :: _ => simp at hlen; omega

theorem any_marker_iff (entries : List String) :
    (entries.any fun name =>
        startsWithS name "Payload/" && endsWithS name ".app/Info.plist") = true ↔
      ∃ name ∈ entries, startsWithS name "Payload/" = true ∧
        endsWithS name ".app/Info.plist" = true := by
  simp [List.any_eq_true, Bool.and_eq_true]

/-! ## Claim theorems -/

/-- C3: for every payload file, the stored permission bits are 0755 exactly
when the first four content bytes form one of the fixed executable-image
magic numbers or the extension is `dylib`, and 0644 otherwise; the decision
depends only on the four-byte prefix and the extension. -/
theorem C3_permission_policy (ext : Option String) (bytes : List Nat) :
    (unix_permissions_for_payload_file ext bytes = 0o755 ∨
      unix_permissions_for_payload_file ext bytes = 0o644) ∧
    (unix_permissions_for_payload_file ext bytes = 0o755 ↔
      (is_macho bytes = true ∨ ext = some "dylib")) ∧
    unix_permissions_for_payload_file ext bytes =
      unix_permissions_for_payload_file ext (bytes.take 4) := by
  unfold unix_permissions_for_payload_file
  rw [is_macho_take_four]
  split_ifs with h1 h2 <;> simp_all

/-- C10: `is_macho` is total and returns `false` on every byte list shorter
than four bytes, and a payload file with fewer than four content bytes and a
non-`dylib` extension is stored with permission 0644. -/
theorem C10_short_input_is_macho_false (bytes : List Nat) (ext : Option String)
    (hlen : bytes.length < 4) :
    is_macho bytes = false ∧
      (ext ≠ some "dylib" → unix_permissions_for_payload_file ext bytes = 0o644) := by
  have hm := is_macho_short hlen
  refine ⟨hm, fun hne => ?_⟩
  unfold unix_permissions_for_payload_file
  rw [hm]
  simp [hne]

/-- Witness for C10 at the two-byte content `[77, 90]` with extension
`txt`. -/
theorem C10_witness :
    is_macho [77, 90] = false ∧
      unix_permissions_for_payload_file (some "txt") [77, 90] = 0o644 := by
  have h := C10_short_input_is_macho_false [77, 90] (some "txt") (by decide)
  exact ⟨h.1, h.2 (by decide)⟩

/-- C6: `validate_generated_ipa` succeeds exactly when some entry name starts
with `Payload/` and ends with `.app/Info.plist`, and otherwise returns the
structural invalid-output error. -/
theorem C6_validate_marker_entry (entries : List String) :
    (validate_generated_ipa entries = Except.ok () ↔
      ∃ name ∈ entries, startsWithS name "Payload/" = true ∧
        endsWithS name ".app/Info.plist" = true) ∧
    (validate_generated_ipa entries =
        Except.error (IpaError.InvalidIpaStructure "Missing Payload/<App>.app/Info.plist") ↔
      ¬ ∃ name ∈ entries, startsWithS name "Payload/" = true ∧
        endsWithS name ".app/Info.plist" = true) := by
  by_cases h : (entries.any fun name =>
      startsWithS name "Payload/" && endsWithS name ".app/Info.plist") = true
  · have hex := (any_marker_iff entries).mp h
    simp [validate_generated_ipa, h, hex]
  · have hnex : ¬ ∃ name ∈ entries, startsWithS name "Payload/" = true ∧
        endsWithS name ".app/Info.plist" = true :=
      fun hx => h ((any_marker_iff entries).mpr hx)
    simp [validate_generated_ipa, h, hnex]

/-- C5: a reported path passes the watcher's candidate filter exactly when it
is an existing file whose name, ASCII-lowercased, starts with `runner.app`
and ends with `.zip`; `Runner.App-DEBUG.Zip` matches, `notes.zip` does not
and is dispatched as silently ignored, triggering no packaging attempt. -/
theorem C5_candidate_filter (p : FsPath) :
    (is_candidate_runner_zip p = true ↔
      p.isFile = true ∧ ∃ name, p.fileName = some name ∧
        startsWithS (toLowerAscii name) "runner.app" = true ∧
        endsWithS (toLowerAscii name) ".zip" = true) ∧
    is_candidate_runner_zip ⟨true, some "Runner.App-DEBUG.Zip"⟩ = true ∧
    is_candidate_runner_zip ⟨true, some "notes.zip"⟩ = false ∧
    (∀ ready : Bool, process_watched_path ⟨true, some "notes.zip"⟩ ready = PathAction.ignored) := by
  refine ⟨?_, by decide, by decide, fun ready => by cases ready <;> rfl⟩
  obtain ⟨isFile, fileName⟩ := p
  cases isFile <;> cases fileName <;>
    simp [is_candidate_runner_zip, Bool.and_eq_true]

/-! ## Helper lemmas for the stability wait -/

theorem wait_ready_sound (obs : Nat → PollObs) :
    ∀ (fuel t : Nat) (lastLen : Option Nat),
      (lastLen = none ∨ ∃ t0, t0 < t ∧ (obs t0).size = lastLen ∧ lastLen ≠ none ∧
        ∀ u, u < t → t0 < u → (obs u).size = none) →
      wait_until_file_ready obs fuel t lastLen = true →
      ∃ t1 t2, t2 < t + fuel ∧ consecReady obs t1 t2 := by
  intro fuel
  induction fuel with
  | zero =>
    intro t lastLen _ h
    simp [wait_until_file_ready] at h
  | succ fuel ih =>
    intro t lastLen hinv h
    simp only [wait_until_file_ready] at h
    rcases hs : (obs t).size with _ | len
    · simp only [hs] at h
      have hinv' : lastLen = none ∨ ∃ t0, t0 < t + 1 ∧ (obs t0).size = lastLen ∧
          lastLen ≠ none ∧ ∀ u, u < t + 1 → t0 < u → (obs u).size = none := by
        rcases hinv with hnone | ⟨t0, h0, hsz, hne, hbet⟩
        · exact Or.inl hnone
        · refine Or.inr ⟨t0, by omega, hsz, hne, fun u hu h0u => ?_⟩
          rcases Nat.lt_succ_iff_lt_or_eq.mp hu with hu' | rfl
          · exact hbet u hu' h0u
          · exact hs
      obtain ⟨t1, t2, hlt, hc⟩ := ih (t + 1) lastLen hinv' h
      exact ⟨t1, t2, by omega, hc⟩
    · simp only [hs] at h
      by_cases heq : lastLen = some len
      · rw [if_pos heq] at h
        by_cases hop : (obs t).openOk = true
        · rcases hinv with hnone | ⟨t0, h0, hsz, hne, hbet⟩
          · rw [hnone] at heq
            simp at heq
          · refine ⟨t0, t, by omega, h0, ?_, ?_, hbet, hop⟩
            · rw [hsz, heq, hs]
            · rw [hs]
              simp
        · rw [if_neg hop] at h
          obtain ⟨t1, t2, hlt, hc⟩ :=
            ih (t + 1) (some len)
              (Or.inr ⟨t, by omega, hs, by simp, fun u hu h0u => by omega⟩) h
          exact ⟨t1, t2, by omega, hc⟩
      · rw [if_neg heq] at h
        obtain ⟨t1, t2, hlt, hc⟩ :=
          ih (t + 1) (some len)
            (Or.inr ⟨t, by omega, hs, by simp, fun u hu h0u => by omega⟩) h
        exact ⟨t1, t2, by omega, hc⟩

theorem wait_changing_never_ready (obs : Nat → PollObs)
    (hall : ∀ u, (obs u).size ≠ none)
    (hchg : ∀ u, (obs (u + 1)).size ≠ (obs u).size) :
    ∀ (fuel t : Nat) (lastLen : Option Nat),
      (t = 0 ∧ lastLen = none ∨ ∃ t0, t = t0 + 1 ∧ lastLen = (obs t0).size) →
      wait_until_file_ready obs fuel t lastLen = false := by
  intro fuel
  induction fuel with
  | zero =>
    intro t lastLen _
    rfl
  | succ fuel ih =>
    intro t lastLen hinv
    simp only [wait_until_file_ready]
    rcases hs : (obs t).size with _ | len
    · exact absurd hs (hall t)
    · have hne : lastLen ≠ some len := by
        rcases hinv with ⟨rfl, rfl⟩ | ⟨t0, rfl, rfl⟩
        · simp
        · intro hcon
          exact hchg t0 (by rw [hs, hcon])
      simp only [hs]
      rw [if_neg hne]
      exact ih (t + 1) (some len) (Or.inr ⟨t, rfl, hs.symm⟩)

/-- C4: the stability wait declares success only when two consecutive
successful size reads agree and the file is then openable; a file whose size
changes at every consecutive poll is never treated as ready; an exhausted
time budget yields the timeout error; and a candidate whose wait failed is
never packaged. -/
theorem C4_stability_wait (obs : Nat → PollObs) (fuel : Nat) :
    (wait_until_file_ready obs fuel 0 none = true →
      ∃ t1 t2, t2 < fuel ∧ consecReady obs t1 t2) ∧
    ((∀ u, (obs u).size ≠ none) → (∀ u, (obs (u + 1)).size ≠ (obs u).size) →
      wait_until_file_ready obs fuel 0 none = false) ∧
    wait_until_file_ready obs 0 0 none = false ∧
    (∀ p : FsPath, process_watched_path p false ≠ PathAction.packaged) := by
  refine ⟨fun h => ?_, fun hall hchg => ?_, rfl, fun p => ?_⟩
  · obtain ⟨t1, t2, hlt, hc⟩ := wait_ready_sound obs fuel 0 none (Or.inl rfl) h
    exact ⟨t1, t2, by omega, hc⟩
  · exact wait_changing_never_ready obs hall hchg fuel 0 none (Or.inl ⟨rfl, rfl⟩)
  · unfold process_watched_path
    split_ifs <;> simp_all

/-- Witness for C4: a constant-size openable file is declared stable within
two polls, and a file growing at every poll is never declared stable within a
ten-poll budget. -/
theorem C4_witness :
    (∃ t1 t2, t2 < 2 ∧ consecReady constSizeObs t1 t2) ∧
    wait_until_file_ready growingSizeObs 10 0 none = false := by
  constructor
  · exact (C4_stability_wait constSizeObs 2).1 rfl
  · exact (C4_stability_wait growingSizeObs 10).2.1
      (fun u => by simp [growingSizeObs])
      (fun u => by simp [growingSizeObs])

/-! ## Helper lemmas about trimming -/

theorem trimList_eq_nil_all_ws {l : List Char} (h : trimList l = []) :
    ∀ c ∈ l, isWs c = true := by
  unfold trimList at h
  rw [List.reverse_eq_nil_iff, List.dropWhile_eq_nil_iff] at h
  intro c hc
  have hsplit := List.takeWhile_append_dropWhile (p := isWs) (l := l)
  rw [← hsplit] at hc
  rcases List.mem_append.mp hc with h1 | h2
  · exact List.mem_takeWhile_imp h1
  · exact h c (List.mem_reverse.mpr h2)

theorem trim_empty_not_ends_ipa {s : String} (h : trimS s = "") :
    endsWithS (toLowerAscii s) ".ipa" = false := by
  have hnil : trimList s.data = [] := congrArg String.data h
  by_contra hne
  have hb : endsWithS (toLowerAscii s) ".ipa" = true := by
    cases hx : endsWithS (toLowerAscii s) ".ipa"
    · exact absurd hx hne
    · rfl
  unfold endsWithS at hb
  rw [List.isSuffixOf_iff_suffix] at hb
  obtain ⟨pre, hpre⟩ := hb
  have ha : 'a' ∈ (toLowerAscii s).data := by
    rw [← hpre]
    exact List.mem_append.mpr (Or.inr (by decide))
  have hmap : (toLowerAscii s).data = s.data.map asciiLowerChar := rfl
  rw [hmap] at ha
  obtain ⟨c, hcmem, hca⟩ := List.mem_map.mp ha
  have hws : isWs c = true := trimList_eq_nil_all_ws hnil c hcmem
  have hid : asciiLowerChar c = c := by
    simp only [isWs, Bool.or_eq_true, beq_iff_eq] at hws
    rcases hws with ((rfl | rfl) | rfl) | rfl <;> decide
  have hc_a : c = 'a' := hid.symm.trans hca
  rw [hc_a] at hws
  exact absurd hws (by decide)

/-- C9: `AutoCheckRunner::start` returns a configuration error, spawning
nothing, exactly when the watch or output directory is not a directory, the
display name trims to empty, or the output archive name is empty, does not
end in `.ipa` case-insensitively, or contains a path separator; every
configuration passing the checks spawns the loop and returns a handle. -/
theorem C9_start_validation (isDir : String → Bool) (cfg : AutoCheckConfig) :
    ((∃ msg, autocheck_start isDir cfg = StartResult.configError msg) ↔
      (isDir cfg.watch_dir = false ∨ isDir cfg.output_dir = false ∨
        trimS cfg.app_name = "" ∨ cfg.output_ipa_name = "" ∨
        endsWithS (toLowerAscii cfg.output_ipa_name) ".ipa" = false ∨
        containsC cfg.output_ipa_name '/' = true ∨
        containsC cfg.output_ipa_name '\\' = true)) ∧
    (autocheck_start isDir cfg = StartResult.spawned ↔
      ¬ (isDir cfg.watch_dir = false ∨ isDir cfg.output_dir = false ∨
        trimS cfg.app_name = "" ∨ cfg.output_ipa_name = "" ∨
        endsWithS (toLowerAscii cfg.output_ipa_name) ".ipa" = false ∨
        containsC cfg.output_ipa_name '/' = true ∨
        containsC cfg.output_ipa_name '\\' = true)) := by
  unfold autocheck_start
  split_ifs with h1 h2 h3 h4 h5
  · constructor <;> simp [h1]
  · constructor <;> simp [h2]
  · constructor <;> simp [h3]
  · rcases h4 with h4a | h4b
    · have hends := trim_empty_not_ends_ipa h4a
      constructor <;> simp [hends]
    · constructor <;> simp [h4b]
  · rcases h5 with h5a | h5b
    · constructor <;> simp [h5a]
    · constructor <;> simp [h5b]
  · have hno := not_or.mp h4
    have hne : ¬ cfg.output_ipa_name = "" := by
      intro he
      exact hno.1 (by rw [he]; rfl)
    have hends : endsWithS (toLowerAscii cfg.output_ipa_name) ".ipa" = true := by
      cases hx : endsWithS (toLowerAscii cfg.output_ipa_name) ".ipa"
      · exact absurd hx hno.2
      · rfl
    have hsep := not_or.mp h5
    constructor <;> simp [h1, h2, h3, hne, hends, hsep.1, hsep.2]

/-- C7 counterexample: with the stop flag clear and the status receiver
disconnected, an iteration that attempts a status send (the event-error
branch, which sends with `let _ = tx.send(...)`) still continues the loop:
a disconnected receiver does NOT terminate the loop on the next send
attempt. -/
theorem C7_counterexample :
    loop_iteration false false EventRecv.okError = LoopOutcome.continueLoop ∧
    loop_iteration false false EventRecv.okError ≠ LoopOutcome.exitLoop := by
  exact ⟨rfl, by decide⟩

/-- C7 amended: status sends are best-effort and their failures are
discarded, so the loop outcome is independent of whether the status receiver
is connected; the iteration exits exactly when the stop flag is set or the
internal watcher-event channel has disconnected. -/
theorem C7_loop_exit_conditions (stopFlag receiverConnected : Bool) (ev : EventRecv) :
    loop_iteration stopFlag receiverConnected ev = loop_iteration stopFlag true ev ∧
    (loop_iteration stopFlag receiverConnected ev = LoopOutcome.exitLoop ↔
      stopFlag = true ∨ ev = EventRecv.disconnected) := by
  cases stopFlag <;> cases ev <;> simp [loop_iteration]

/-! ## Helper lemmas for the bundle locator -/

theorem find?_eq_head?_filter {α : Type} (p : α → Bool) :
    ∀ l : List α, l.find? p = (l.filter p).head? := by
  intro l
  induction l with
  | nil => rfl
  | cons x xs ih =>
    by_cases h : p x = true
    · rw [List.find?_cons_of_pos _ h, List.filter_cons_of_pos h]
      rfl
    · rw [List.find?_cons_of_neg _ h, List.filter_cons_of_neg h]
      exact ih

theorem foldl_lexMin2_sorted (q : String) :
    ∀ xs : List String, (∀ y ∈ xs, strLeB q y = true) →
      xs.foldl lexMin2 (some q) = some q := by
  intro xs
  induction xs with
  | nil => intro _; rfl
  | cons y ys ih =>
    intro hall
    have hy : strLeB q y = true := hall y (by simp)
    have hlt : strLtB y q = false := by
      unfold strLeB at hy
      cases hx : strLtB y q
      · rfl
      · rw [hx] at hy
        simp at hy
    rw [List.foldl_cons]
    have hstep : lexMin2 (some q) y = some q := by
      show (if strLtB y q = true then some y else some q) = some q
      rw [hlt]
      simp
    rw [hstep]
    exact ih fun z hz => hall z (by simp [hz])

theorem lexSmallest_sorted :
    ∀ paths : List String, List.Pairwise (fun a b => strLeB a b = true) paths →
      lexSmallest paths = paths.head? := by
  intro paths h
  cases paths with
  | nil => rfl
  | cons x xs =>
    rcases List.pairwise_cons.mp h with ⟨hx, _⟩
    show (x :: xs).foldl lexMin2 none = some x
    rw [List.foldl_cons]
    exact foldl_lexMin2_sorted x xs hx

/-- C1 counterexample: two qualifying candidates, with the lexicographically
larger path first in traversal order.  The locator of `generate_ipa` selects
the first one encountered, not the lexicographically smallest, and in
particular differs from the spec's collect-then-minimize rule. -/
theorem C1_counterexample :
    locate_app_bundle [bundleEntryB, bundleEntryA] = some "/tmp/extract/b.app" ∧
    locate_app_bundle_per_spec [bundleEntryB, bundleEntryA] = some "/tmp/extract/a.app" ∧
    locate_app_bundle [bundleEntryB, bundleEntryA] ≠
      locate_app_bundle_per_spec [bundleEntryB, bundleEntryA] := by
  refine ⟨rfl, rfl, by decide⟩

/-- C1 amended: the bundle locator selects the first qualifying candidate in
traversal order (it stops at the first match instead of collecting all
candidates); this coincides with the spec's ascending-lexicographic minimum
exactly when the traversal happens to enumerate entries in ascending path
order, and every selected result is a qualifying candidate within the depth
bound. -/
theorem C1_first_match_locator (entries : List WalkEntry) :
    (List.Pairwise (fun a b => strLeB a.path b.path = true) entries →
      locate_app_bundle entries = locate_app_bundle_per_spec entries) ∧
    (∀ p, locate_app_bundle entries = some p →
      ∃ e ∈ entries, withinDepthB e = true ∧ qualifies e = true ∧ e.path = p) := by
  constructor
  · intro hsorted
    have hp : List.Pairwise (fun a b => strLeB a b = true)
        (((entries.filter withinDepthB).filter qualifies).map WalkEntry.path) := by
      rw [List.pairwise_map]
      exact (hsorted.filter withinDepthB).filter qualifies
    unfold locate_app_bundle locate_app_bundle_per_spec
    rw [find?_eq_head?_filter, ← List.head?_map, lexSmallest_sorted _ hp]
  · intro p hp
    unfold locate_app_bundle at hp
    obtain ⟨e, hfind, hpath⟩ := Option.map_eq_some'.mp hp
    have hq := List.find?_some hfind
    have hmem := List.mem_of_find?_eq_some hfind
    rcases List.mem_filter.mp hmem with ⟨hmem', hdepth⟩
    exact ⟨e, hmem', hdepth, hq, hpath⟩

/-- Witness for C1 at a sorted traversal: with the smaller path first, the
first-match locator and the lexicographic rule agree on the smaller bundle,
and the selected path belongs to a qualifying candidate. -/
theorem C1_witness :
    locate_app_bundle [bundleEntryA, bundleEntryB] =
      locate_app_bundle_per_spec [bundleEntryA, bundleEntryB] ∧
    ∃ e ∈ [bundleEntryA, bundleEntryB], withinDepthB e = true ∧ qualifies e = true ∧
      e.path = "/tmp/extract/a.app" := by
  constructor
  · exact (C1_first_match_locator [bundleEntryA, bundleEntryB]).1 (by decide)
  · exact (C1_first_match_locator [bundleEntryA, bundleEntryB]).2 "/tmp/extract/a.app" rfl

/-- C2 counterexample: a request whose output name `MyApp.zip` lacks the
`.ipa` extension is indeed rejected with the invalid-name configuration
error, but only after filesystem work has occurred: the trace contains the
temp-dir creation, the extraction, and the payload copy, contradicting the
claim that no filesystem work happens before the rejection. -/
theorem C2_counterexample :
    (generate_ipa cfgBadName "/out" envGood).1 =
      Except.error (IpaError.InvalidIpaName "MyApp.zip") ∧
    FsAction.createTempDir ∈ (generate_ipa cfgBadName "/out" envGood).2 ∧
    FsAction.extractArchive ∈ (generate_ipa cfgBadName "/out" envGood).2 ∧
    FsAction.copyBundle ∈ (generate_ipa cfgBadName "/out" envGood).2 := by
  refine ⟨rfl, by decide, by decide, by decide⟩

/-- C2 amended: a request whose output archive name (after trimming) is
empty, lacks the `.ipa` extension case-insensitively, or contains a path
separator is rejected with an invalid-name error and no output file is
created — but the rejection happens only after the temporary directories are
created, the archive extracted, the bundle located and copied into the
payload area. -/
theorem C2_invalid_name_rejected_late (config : AppConfig) (output_dir : String)
    (env : PipelineEnv)
    (h1 : env.inputExists = true) (h2 : env.outputDirIsDir = true)
    (h3 : env.extractOk = true)
    (h4 : (locate_app_bundle env.walkEntries).isSome = true)
    (h5 : env.copyOk = true)
    (h6 : trimS config.output_ipa_name = "" ∨
      endsWithS (toLowerAscii (trimS config.output_ipa_name)) ".ipa" = false ∨
      containsC (trimS config.output_ipa_name) '/' = true ∨
      containsC (trimS config.output_ipa_name) '\\' = true) :
    (generate_ipa config output_dir env).1 =
      Except.error (IpaError.InvalidIpaName (trimS config.output_ipa_name)) ∧
    (∀ n, FsAction.createOutputFile n ∉ (generate_ipa config output_dir env).2) ∧
    FsAction.createTempDir ∈ (generate_ipa config output_dir env).2 ∧
    FsAction.extractArchive ∈ (generate_ipa config output_dir env).2 ∧
    FsAction.copyBundle ∈ (generate_ipa config output_dir env).2 := by
  obtain ⟨b, hb⟩ := Option.isSome_iff_exists.mp h4
  have hsimp : generate_ipa config output_dir env =
      (Except.error (IpaError.InvalidIpaName (trimS config.output_ipa_name)),
       [FsAction.createTempDir, FsAction.extractArchive, FsAction.createTempDir,
        FsAction.createPayloadDir, FsAction.copyBundle]) := by
    unfold generate_ipa
    rw [h1, h2, h3, h5, hb]
    by_cases hA : trimS config.output_ipa_name = "" ∨
        endsWithS (toLowerAscii (trimS config.output_ipa_name)) ".ipa" = false
    · simp [hA]
    · have hsep : containsC (trimS config.output_ipa_name) '/' = true ∨
          containsC (trimS config.output_ipa_name) '\\' = true := by
        rcases h6 with h | h | h | h
        · exact absurd (Or.inl h) hA
        · exact absurd (Or.inr h) hA
        · exact Or.inl h
        · exact Or.inr h
      simp [hA, hsep]
  rw [hsimp]
  refine ⟨rfl, fun n => by simp, by simp, by simp, by simp⟩

/-- Witness for C2 amended at the concrete bad-name request. -/
theorem C2_witness :
    (generate_ipa cfgBadName "/out" envGood).1 =
      Except.error (IpaError.InvalidIpaName "MyApp.zip") ∧
    FsAction.createOutputFile "MyApp.zip" ∉ (generate_ipa cfgBadName "/out" envGood).2 := by
  have h := C2_invalid_name_rejected_late cfgBadName "/out" envGood rfl rfl rfl rfl rfl
    (Or.inr (Or.inl rfl))
  exact ⟨h.1, h.2.1 "MyApp.zip"⟩

/-- C8: when the extracted tree has no qualifying bundle within the depth
bound, the pipeline fails with the structural error naming the searched
extraction root, and no output file is created. -/
theorem C8_no_bundle_error (config : AppConfig) (output_dir : String)
    (env : PipelineEnv)
    (h1 : env.inputExists = true) (h2 : env.outputDirIsDir = true)
    (h3 : env.extractOk = true)
    (h4 : ∀ e ∈ env.walkEntries, withinDepthB e = true → qualifies e = false) :
    (generate_ipa config output_dir env).1 =
      Except.error (IpaError.UnexpectedZipStructure env.extractedRoot) ∧
    (∀ n, FsAction.createOutputFile n ∉ (generate_ipa config output_dir env).2) := by
  have hloc : locate_app_bundle env.walkEntries = none := by
    unfold locate_app_bundle
    rw [Option.map_eq_none']
    rw [List.find?_eq_none]
    intro e he
    rcases List.mem_filter.mp he with ⟨hmem, hdep⟩
    simp [h4 e hmem hdep]
  have hsimp : generate_ipa config output_dir env =
      (Except.error (IpaError.UnexpectedZipStructure env.extractedRoot),
       [FsAction.createTempDir, FsAction.extractArchive]) := by
    unfold generate_ipa
    rw [h1, h2, h3, hloc]
    simp
  rw [hsimp]
  exact ⟨rfl, fun n => by simp⟩

/-- Witness for C8 at the repository's own no-bundle fixture: a zip holding
only `readme.txt`. -/
theorem C8_witness :
    (generate_ipa cfgOkName "/out" envNoBundle).1 =
      Except.error (IpaError.UnexpectedZipStructure "/tmp/extract2") ∧
    FsAction.createOutputFile "MyApp.ipa" ∉ (generate_ipa cfgOkName "/out" envNoBundle).2 := by
  have h := C8_no_bundle_error cfgOkName "/out" envNoBundle rfl rfl rfl (by decide)
  exact ⟨h.1, h.2 "MyApp.ipa"⟩

end IpaBuilder
